import Mathlib

/-!
Shallow embedding of the bit-level bus simulations (11_spi_realistic.cpp,
12_i2c_realistic.cpp) and the semaphore-gated pipeline (14_rtos_advanced.cpp),
with theorems settling the specification claims about them.
-/

set_option maxRecDepth 4096

/-! ## Bit helpers

`bitOf v i` models the C expression `(v >> i) & 1` as a boolean. -/

def bitOf (v : Nat) (i : Nat) : Bool := (v >>> i) % 2 = 1

def boolBit (b : Bool) : Nat := if b then 1 else 0

/-! ## I2C slave (12_i2c_realistic.cpp, `I2CSlave`)

The slave receives the 7 address bits the master drives (loop `i = 7 .. 1`,
storing `(SDA & 1) << i`), compares the reconstructed value with its configured
address, ACKs on equality and then receives the 8 data bits (loop `i = 7 .. 0`);
on mismatch it NACKs and returns, leaving `received_data = 0`.

In the lock-step composition with `I2CMaster_Write address data`, the SDA value
sampled in address slot `i` is `(address >> i) & 1` and in data slot `i` is
`(data >> i) & 1`. -/

def I2CSlave_receivedAddress (wire : Nat) : Nat :=
  (List.range 7).foldl (fun acc k => acc ||| (boolBit (bitOf wire (7 - k)) <<< (7 - k))) 0

def I2CSlave_receivedData (wire : Nat) : Nat :=
  (List.range 8).foldl (fun acc k => acc ||| (boolBit (bitOf wire (7 - k)) <<< (7 - k))) 0

/-- Outcome of one `I2CSlave` run against a master writing `wireAddr`/`wireData`:
`(ack, received_data)` where `ack = true` models driving SDA low (ACK). -/
def I2CSlave (cfgAddr wireAddr wireData : Nat) : Bool × Nat :=
  if I2CSlave_receivedAddress wireAddr = cfgAddr then
    (true, I2CSlave_receivedData wireData)
  else
    (false, 0)

/-! ## SPI transfer (11_spi_realistic.cpp, `SPIMaster` / `SPISlave`)

Per clock cycle `i = 7 .. 0`: the master drives `MOSI = (data_out >> i) & 1`
and raises SCLK; the slave samples MOSI into bit `i` of its byte and drives
`MISO = MOSI & 1`; the master then samples MISO into bit `i` of its received
byte and lowers SCLK.  The fold below performs exactly this exchange in
lock-step; the state is `(master_received, slave_received)`. -/

def spiBitExchange (data_out : Nat) (st : Nat × Nat) (i : Nat) : Nat × Nat :=
  let mosi := bitOf data_out i
  let slave_received := st.2 ||| (boolBit mosi <<< i)
  let miso := mosi
  let master_received := st.1 ||| (boolBit miso <<< i)
  (master_received, slave_received)

/-- One full 8-bit SPI transaction: returns `(master_received, slave_received)`. -/
def spiTransfer (data_out : Nat) : Nat × Nat :=
  (List.range 8).foldl (fun st k => spiBitExchange data_out st (7 - k)) (0, 0)

/-! ## Bus event traces (master sides)

`I2CMaster_Write` (12_i2c_realistic.cpp) and `SPIMaster` (11_spi_realistic.cpp)
are straight-line procedures; we embed each as the sequence of observable bus
events it performs, in program order: lock acquisitions/releases of the single
bus mutex, line writes, line samples and sleeps. -/

inductive BusLine
  | SDA | SCL | MOSI | MISO | SCLK | CS
  deriving DecidableEq, Repr

inductive BusEv
  | lock
  | unlock
  | write (l : BusLine) (b : Bool)
  | sample (l : BusLine)
  | sleepMs (n : Nat)
  deriving DecidableEq, Repr

def BusEv.isSleep : BusEv → Bool
  | .sleepMs _ => true
  | _ => false

def BusEv.isWrite : BusEv → Bool
  | .write _ _ => true
  | _ => false

def BusEv.isSample : BusEv → Bool
  | .sample _ => true
  | _ => false

/-- The line a write or sample touches, if any. -/
def BusEv.line : BusEv → Option BusLine
  | .write l _ => some l
  | .sample l => some l
  | _ => none

/-- Values written to line `l`, in program order. -/
def writesOf (l : BusLine) (tr : List BusEv) : List Bool :=
  tr.filterMap fun e =>
    match e with
    | .write l' b => if l' = l then some b else none
    | _ => none

/-- Does the trace ever sample (read) any bus line? -/
def samplesAnyLine (tr : List BusEv) : Bool := tr.any BusEv.isSample

/-- Pair each event with the mutex depth at which it executes (a `lock` event
executes at the depth before acquiring; events inside a `lock`/`unlock` pair
execute at depth ≥ 1). -/
def annotateDepth : Nat → List BusEv → List (BusEv × Nat)
  | _, [] => []
  | d, .lock :: rest => (.lock, d) :: annotateDepth (d + 1) rest
  | d, .unlock :: rest => (.unlock, d - 1) :: annotateDepth (d - 1) rest
  | d, e :: rest => (e, d) :: annotateDepth d rest

/-- `I2CMaster_Write` bit slot `i`: under the bus lock, drive SDA to the bit,
raise SCL, hold 50 ms, lower SCL; the 50 ms hold happens inside the
`lock_guard` scope. -/
def i2cBitSlot (b : Bool) : List BusEv :=
  [.lock, .write .SDA b, .write .SCL true, .sleepMs 50, .write .SCL false, .unlock]

/-- Trace of `I2CMaster_Write(address, data)`: START (SDA low while SCL high,
under the lock), 7 address bits MSB-first (`i = 7 .. 1`), a bare 50 ms sleep
where the ACK would be awaited, 8 data bits MSB-first (`i = 7 .. 0`), STOP
(SDA high while SCL high, under the lock). -/
def I2CMaster_Write (address data : Nat) : List BusEv :=
  [.lock, .write .SDA false, .write .SCL true, .unlock, .sleepMs 50]
    ++ ((List.range 7).map fun k => i2cBitSlot (bitOf address (7 - k))).flatten
    ++ [.sleepMs 50]
    ++ ((List.range 8).map fun k => i2cBitSlot (bitOf data (7 - k))).flatten
    ++ [.lock, .write .SDA true, .write .SCL true, .unlock]

/-- `SPIMaster` clock-high half of bit slot `i`: under the lock, set MOSI and
raise SCLK; then sleep 50 ms with the lock released. -/
def spiBitHigh (b : Bool) : List BusEv :=
  [.lock, .write .MOSI b, .write .SCLK true, .unlock, .sleepMs 50]

/-- `SPIMaster` clock-low half: under the lock, sample MISO and lower SCLK;
then sleep 50 ms with the lock released. -/
def spiBitLow : List BusEv :=
  [.lock, .sample .MISO, .write .SCLK false, .unlock, .sleepMs 50]

/-- Trace of `SPIMaster(data_out)`: pull CS low (no lock taken), 8 bit slots
MSB-first (`i = 7 .. 0`), raise CS (no lock taken). -/
def SPIMaster (data_out : Nat) : List BusEv :=
  [.write .CS false]
    ++ ((List.range 8).map fun k =>
          spiBitHigh (bitOf data_out (7 - k)) ++ spiBitLow).flatten
    ++ [.write .CS true]

/-! ## Counting semaphore (14_rtos_advanced.cpp, `class Semaphore`)

`wait()` blocks on the condition variable until `count > 0`, then decrements;
`signal()` increments unconditionally and notifies.  A completed `wait` is
therefore a decrement performed from a positive count; a `wait` issued at
count 0 does not complete (modelled as `none`). -/

structure Semaphore where
  count : Int
  deriving DecidableEq, Repr

def Semaphore.wait (s : Semaphore) : Option Semaphore :=
  if 0 < s.count then some ⟨s.count - 1⟩ else none

def Semaphore.signal (s : Semaphore) : Semaphore :=
  ⟨s.count + 1⟩

inductive SemOp
  | wait | signal
  deriving DecidableEq, Repr

def semStep (s : Semaphore) : SemOp → Option Semaphore
  | .wait => s.wait
  | .signal => some s.signal

/-- Run a sequence of semaphore operations to completion; `none` when a `wait`
cannot complete. -/
def semRun (s : Semaphore) : List SemOp → Option Semaphore
  | [] => some s
  | op :: ops =>
    match semStep s op with
    | some s' => semRun s' ops
    | none => none

/-! ## Pipeline transition system (14_rtos_advanced.cpp)

Interleaving semantics of the three tasks sharing `pipelineQueue` and
`pipeline_slots` (capacity 2).  Queue operations are modelled as atomic steps.
State fields record the shared state plus event histories used to phrase the
claims.  `n` is the number of readings `task_sensor_read` produces (5 in
`main`). -/

structure PipeState where
  count : Int          -- pipeline_slots internal count
  queue : List Nat     -- dataQueue contents, front first
  produced : Nat       -- sensor readings pushed so far (values 1..produced)
  holding : Bool       -- sensor completed wait(), push still pending
  procPending : Bool   -- task_data_process popped, signal() still pending
  waits : Nat          -- completed pipeline_slots.wait() calls
  signals : Nat        -- completed pipeline_slots.signal() calls
  pushed : List Nat    -- enqueue history, in order
  popped : List Nat    -- dequeue history (both consumers), in dequeue order
  procOut : List Nat   -- values printed by task_data_process (doubled)
  uartOut : List Nat   -- values printed by task_uart_send (raw)
  deriving DecidableEq, Repr

def initPipe : PipeState :=
  { count := 2, queue := [], produced := 0, holding := false,
    procPending := false, waits := 0, signals := 0,
    pushed := [], popped := [], procOut := [], uartOut := [] }

/-- One atomic step of the concurrent system:
* `sensorWait` / `sensorPush`: body of `task_sensor_read`'s loop — read the
  next value, complete `pipeline_slots.wait()` (only possible at positive
  count), then push onto the queue;
* `procPop` / `procSignal`: body of `task_data_process` — pop the front,
  print `val * 2`, then `pipeline_slots.signal()`;
* `uartPop`: body of `task_uart_send` — pop the front of the *same* queue and
  print the raw value (no semaphore interaction). -/
inductive PipeStep (n : Nat) : PipeState → PipeState → Prop
  | sensorWait (s : PipeState) :
      s.produced < n → s.holding = false → 0 < s.count →
      PipeStep n s { s with count := s.count - 1, holding := true,
                            waits := s.waits + 1 }
  | sensorPush (s : PipeState) :
      s.holding = true →
      PipeStep n s { s with queue := s.queue ++ [s.produced + 1],
                            produced := s.produced + 1, holding := false,
                            pushed := s.pushed ++ [s.produced + 1] }
  | procPop (s : PipeState) (v : Nat) (rest : List Nat) :
      s.queue = v :: rest → s.procPending = false →
      PipeStep n s { s with queue := rest, procPending := true,
                            popped := s.popped ++ [v],
                            procOut := s.procOut ++ [v * 2] }
  | procSignal (s : PipeState) :
      s.procPending = true →
      PipeStep n s { s with count := s.count + 1, procPending := false,
                            signals := s.signals + 1 }
  | uartPop (s : PipeState) (v : Nat) (rest : List Nat) :
      s.queue = v :: rest →
      PipeStep n s { s with queue := rest,
                            popped := s.popped ++ [v],
                            uartOut := s.uartOut ++ [v] }

inductive PipeReachable (n : Nat) : PipeState → Prop
  | init : PipeReachable n initPipe
  | step {s s' : PipeState} :
      PipeReachable n s → PipeStep n s s' → PipeReachable n s'

/-! Executable schedules, to exhibit concrete interleavings. -/

inductive PipeTag
  | sensorWait | sensorPush | procPop | procSignal | uartPop
  deriving DecidableEq, Repr

def pipeApply (n : Nat) (t : PipeTag) (s : PipeState) : Option PipeState :=
  match t with
  | .sensorWait =>
    if s.produced < n ∧ s.holding = false ∧ 0 < s.count then
      some { s with count := s.count - 1, holding := true, waits := s.waits + 1 }
    else none
  | .sensorPush =>
    if s.holding = true then
      some { s with queue := s.queue ++ [s.produced + 1],
                    produced := s.produced + 1, holding := false,
                    pushed := s.pushed ++ [s.produced + 1] }
    else none
  | .procPop =>
    match s.queue, s.procPending with
    | v :: rest, false =>
      some { s with queue := rest, procPending := true,
                    popped := s.popped ++ [v], procOut := s.procOut ++ [v * 2] }
    | _, _ => none
  | .procSignal =>
    if s.procPending = true then
      some { s with count := s.count + 1, procPending := false,
                    signals := s.signals + 1 }
    else none
  | .uartPop =>
    match s.queue with
    | v :: rest =>
      some { s with queue := rest, popped := s.popped ++ [v],
                    uartOut := s.uartOut ++ [v] }
    | [] => none

def pipeRun (n : Nat) (s : PipeState) : List PipeTag → Option PipeState
  | [] => some s
  | t :: ts =>
    match pipeApply n t s with
    | some s' => pipeRun n s' ts
    | none => none

def holdNat (s : PipeState) : Nat := s.holding.toNat

def pendNat (s : PipeState) : Nat := s.procPending.toNat

/-- Inductive invariant of the pipeline transition system. -/
structure PipeInv (s : PipeState) : Prop where
  countEq : s.count = 2 + (s.signals : Int) - (s.waits : Int)
  waitsEq : s.waits = s.produced + holdNat s
  histEq : s.popped ++ s.queue = s.pushed
  pushedEq : s.pushed = (List.range s.produced).map Nat.succ
  signalsLe : s.signals + pendNat s ≤ s.popped.length
  countNonneg : 0 ≤ s.count

/-! ## Lock-discipline predicates and concrete schedules -/

/-- Lock discipline actually followed by `SPIMaster`: MOSI/SCLK writes and the
MISO sample happen under the lock, CS writes happen outside it, and no sleep
happens while holding the lock. -/
def spiMasterLockOk (p : BusEv × Nat) : Bool :=
  match p.1 with
  | .write .CS _ => p.2 == 0
  | .write _ _ => (1 ≤ p.2 : Bool)
  | .sample _ => (1 ≤ p.2 : Bool)
  | .sleepMs _ => p.2 == 0
  | _ => true

/-- Lock discipline actually followed by `I2CMaster_Write`: every line write
happens under the lock and no line is ever sampled. -/
def i2cMasterLockOk (p : BusEv × Nat) : Bool :=
  match p.1 with
  | .write _ _ => (1 ≤ p.2 : Bool)
  | .sample _ => false
  | _ => true

/-- Schedule in which `task_data_process` performs every pop: the intended
pipeline behaviour. -/
def c3GoodSched : List PipeTag :=
  (List.replicate 5 [PipeTag.sensorWait, .sensorPush, .procPop, .procSignal]).flatten

def c3GoodFinal : PipeState :=
  { count := 2, queue := [], produced := 5, holding := false, procPending := false,
    waits := 5, signals := 5, pushed := [1, 2, 3, 4, 5], popped := [1, 2, 3, 4, 5],
    procOut := [2, 4, 6, 8, 10], uartOut := [] }

/-- Schedule in which `task_uart_send` wins the race for the first reading;
the remaining four go through `task_data_process`. -/
def c3BadSched : List PipeTag :=
  [.sensorWait, .sensorPush, .uartPop] ++
    (List.replicate 4 [PipeTag.sensorWait, .sensorPush, .procPop, .procSignal]).flatten

def c3BadFinal : PipeState :=
  { count := 1, queue := [], produced := 5, holding := false, procPending := false,
    waits := 5, signals := 4, pushed := [1, 2, 3, 4, 5], popped := [1, 2, 3, 4, 5],
    procOut := [4, 6, 8, 10], uartOut := [1] }

/-- Schedule in which `task_uart_send` pops the first two readings before
`task_data_process` runs at all. -/
def c5Sched : List PipeTag :=
  [.sensorWait, .sensorPush, .uartPop, .sensorWait, .sensorPush, .uartPop]

/-- The state reached by `c5Sched`: both semaphore slots consumed, never to be
released — no step is enabled although only 2 of the 5 readings were produced. -/
def c5Dead : PipeState :=
  { count := 0, queue := [], produced := 2, holding := false, procPending := false,
    waits := 2, signals := 0, pushed := [1, 2], popped := [1, 2],
    procOut := [], uartOut := [1, 2] }

/-! ## Lemmas -/

/-! Characterisation lemmas, proved by exhausting the 8-bit range. -/

lemma I2CSlave_receivedAddress_eq : ∀ w : Nat, w < 256 →
    I2CSlave_receivedAddress w = w - w % 2 := by
  decide

lemma I2CSlave_receivedData_eq : ∀ w : Nat, w < 256 →
    I2CSlave_receivedData w = w := by
  decide

lemma spiTransfer_eq : ∀ v : Nat, v < 256 → spiTransfer v = (v, v) := by
  decide

lemma pipeApply_sound {n : Nat} {t : PipeTag} {s s' : PipeState}
    (h : pipeApply n t s = some s') : PipeStep n s s' := by
  cases t
  case sensorWait =>
    rw [pipeApply] at h
    split at h
    · rename_i hc
      injection h with h
      exact h ▸ PipeStep.sensorWait s hc.1 hc.2.1 hc.2.2
    · exact absurd h (by simp)
  case sensorPush =>
    rw [pipeApply] at h
    split at h
    · rename_i hc
      injection h with h
      exact h ▸ PipeStep.sensorPush s hc
    · exact absurd h (by simp)
  case procPop =>
    rw [pipeApply] at h
    split at h
    · rename_i v rest hq hp
      injection h with h
      exact h ▸ PipeStep.procPop s v rest hq hp
    · exact absurd h (by simp)
  case procSignal =>
    rw [pipeApply] at h
    split at h
    · rename_i hc
      injection h with h
      exact h ▸ PipeStep.procSignal s hc
    · exact absurd h (by simp)
  case uartPop =>
    rw [pipeApply] at h
    split at h
    · rename_i v rest hq
      injection h with h
      exact h ▸ PipeStep.uartPop s v rest hq
    · exact absurd h (by simp)

lemma pipeRun_reachable {n : Nat} :
    ∀ (ts : List PipeTag) (s s' : PipeState),
      pipeRun n s ts = some s' → PipeReachable n s → PipeReachable n s'
  | [], s, s', h, hr => by
    rw [pipeRun] at h
    injection h with h
    exact h ▸ hr
  | t :: ts, s, s', h, hr => by
    rw [pipeRun] at h
    cases hap : pipeApply n t s with
    | none => rw [hap] at h; exact absurd h (by simp)
    | some s1 =>
      rw [hap] at h
      exact pipeRun_reachable ts s1 s' h (hr.step (pipeApply_sound hap))

lemma pipeInv_init : PipeInv initPipe := by
  constructor <;> simp [initPipe, holdNat, pendNat]

lemma pipeInv_step {n : Nat} {s s' : PipeState}
    (h : PipeStep n s s') (inv : PipeInv s) : PipeInv s' := by
  obtain ⟨i1, i2, i3, i4, i5, i6⟩ := inv
  cases h with
  | sensorWait h1 h2 h3 =>
    refine ⟨?_, ?_, i3, i4, i5, ?_⟩
    · show s.count - 1 = 2 + (s.signals : Int) - ((s.waits + 1 : Nat) : Int)
      omega
    · show s.waits + 1 = s.produced + holdNat _
      simp only [holdNat, h2, Bool.toNat_false] at i2
      simp only [holdNat, Bool.toNat_true]
      omega
    · show 0 ≤ s.count - 1
      omega
  | sensorPush h1 =>
    refine ⟨i1, ?_, ?_, ?_, i5, i6⟩
    · show s.waits = s.produced + 1 + holdNat _
      simp only [holdNat, h1, Bool.toNat_true] at i2
      simp only [holdNat, Bool.toNat_false]
      omega
    · show s.popped ++ (s.queue ++ [s.produced + 1]) = s.pushed ++ [s.produced + 1]
      rw [← List.append_assoc, i3]
    · show s.pushed ++ [s.produced + 1] = (List.range (s.produced + 1)).map Nat.succ
      rw [i4, List.range_succ]
      simp
  | procPop v rest hq hp =>
    refine ⟨i1, i2, ?_, i4, ?_, i6⟩
    · show s.popped ++ [v] ++ rest = s.pushed
      rw [List.append_assoc, List.singleton_append, ← hq]
      exact i3
    · show s.signals + pendNat _ ≤ (s.popped ++ [v]).length
      simp only [pendNat, hp, Bool.toNat_false] at i5
      simp only [pendNat, Bool.toNat_true, List.length_append, List.length_singleton]
      omega
  | procSignal h1 =>
    refine ⟨?_, i2, i3, i4, ?_, ?_⟩
    · show s.count + 1 = 2 + ((s.signals + 1 : Nat) : Int) - (s.waits : Int)
      omega
    · show s.signals + 1 + pendNat _ ≤ s.popped.length
      simp only [pendNat, h1, Bool.toNat_true] at i5
      simp only [pendNat, Bool.toNat_false]
      omega
    · show 0 ≤ s.count + 1
      omega
  | uartPop v rest hq =>
    refine ⟨i1, i2, ?_, i4, ?_, i6⟩
    · show s.popped ++ [v] ++ rest = s.pushed
      rw [List.append_assoc, List.singleton_append, ← hq]
      exact i3
    · show s.signals + pendNat _ ≤ (s.popped ++ [v]).length
      simp only [pendNat] at i5 ⊢
      simp only [List.length_append, List.length_singleton]
      omega

lemma pipeInv_reachable {n : Nat} {s : PipeState}
    (h : PipeReachable n s) : PipeInv s := by
  induction h with
  | init => exact pipeInv_init
  | step _ hstep ih => exact pipeInv_step hstep ih

/-- Derived safety bounds of the admission gate and queue. -/
lemma pipe_bounds {n : Nat} {s : PipeState} (h : PipeReachable n s) :
    0 ≤ s.count ∧ s.count ≤ 2 ∧ s.waits ≤ s.signals + 2 ∧
      s.queue.length + holdNat s ≤ 2 := by
  obtain ⟨i1, i2, i3, i4, i5, i6⟩ := pipeInv_reachable h
  have hlen : s.popped.length + s.queue.length = s.produced := by
    have h3 := congrArg List.length i3
    rw [i4] at h3
    simpa using h3
  omega

/-- Count accounting for the semaphore: a completed run ends at
`initial + #signal − #wait`, and the count is never negative (every
intermediate state is itself the result of a run of a shorter sequence). -/
lemma semRun_count : ∀ (ops : List SemOp) (init fin : Semaphore),
    0 ≤ init.count → semRun init ops = some fin →
    (fin.count : Int) = init.count + ops.count .signal - ops.count .wait ∧
      0 ≤ fin.count
  | [], init, fin, h0, h => by
    rw [semRun] at h
    injection h with h
    subst h
    simp [h0]
  | .wait :: ops, init, fin, h0, h => by
    rw [semRun] at h
    cases hstep : semStep init .wait with
    | none => rw [hstep] at h; exact absurd h (by simp)
    | some s1 =>
      rw [hstep] at h
      rw [semStep, Semaphore.wait] at hstep
      split at hstep
      · rename_i hpos
        injection hstep with hstep
        subst hstep
        have ih := semRun_count ops ⟨init.count - 1⟩ fin
          (by show (0 : Int) ≤ init.count - 1; omega) h
        simp only [List.count_cons] at ih ⊢
        simp at ih ⊢
        omega
      · exact absurd hstep (by simp)
  | .signal :: ops, init, fin, h0, h => by
    rw [semRun] at h
    cases hstep : semStep init .signal with
    | none => rw [hstep] at h; exact absurd h (by simp)
    | some s1 =>
      rw [hstep] at h
      rw [semStep, Semaphore.signal] at hstep
      injection hstep with hstep
      subst hstep
      have ih := semRun_count ops ⟨init.count + 1⟩ fin
        (by show (0 : Int) ≤ init.count + 1; omega) h
      simp only [List.count_cons] at ih ⊢
      simp at ih ⊢
      omega

/-! ## Claim theorems -/

/-- **C1, counterexample.**  The claim says the peripheral ACKs iff the
transmitted address equals the configured one, and in particular NACKs when the
controller sends to 0x51 while the peripheral is configured for 0x50, leaving
the data unset.  In the code the master transmits only bits 7..1 of the address
byte (`for (i = 7; i >= 1; i--)`) and the slave compares the value rebuilt from
those bits against the full configured byte, so sending to 0x51 (= 0x50 with
bit 0 set, identical on the wire) is ACKed and the data byte 0xA5 is received;
conversely a slave configured for 0x51 NACKs even an exactly equal transmitted
address. -/
theorem c1_counterexample :
    I2CSlave 0x50 0x51 0xA5 = (true, 0xA5) ∧ I2CSlave 0x51 0x51 0xA5 = (false, 0) := by
  decide

/-- **C1, amended.**  For 8-bit inputs, the peripheral ACKs iff the transmitted
address byte with bit 0 cleared (`wa - wa % 2`) equals the configured address;
on ACK the 8-bit data phase is received in full, on NACK the transaction is
ignored and the received data stays 0 (the data phase is never entered). -/
theorem c1_address_match (cfg wa d : Nat) (hwa : wa < 256) (hd : d < 256) :
    I2CSlave cfg wa d = if wa - wa % 2 = cfg then (true, d) else (false, 0) := by
  rw [I2CSlave, I2CSlave_receivedAddress_eq wa hwa, I2CSlave_receivedData_eq d hd]

/-- Witness for `c1_address_match` at configured address 0x50, transmitted
address 0x52 (a genuinely different 7-bit address, hence NACK), data 0xA5. -/
theorem c1_address_match_witness :
    I2CSlave 0x50 0x52 0xA5 = if 0x52 - 0x52 % 2 = 0x50 then (true, 0xA5) else (false, 0) :=
  c1_address_match 0x50 0x52 0xA5 (by decide) (by decide)

/-- **C2, confirmed.**  For every 8-bit value, the lock-step MSB-first transfer
reconstructs the value exactly: the SPI slave receives `v` and echoes every bit
back so the master also reads back `v`, and the I2C slave (configured for the
matching address 0x50) ACKs and receives `v` in full. -/
theorem c2_roundtrip (v : Nat) (hv : v < 256) :
    spiTransfer v = (v, v) ∧ I2CSlave 0x50 0x50 v = (true, v) := by
  refine ⟨spiTransfer_eq v hv, ?_⟩
  rw [I2CSlave, I2CSlave_receivedAddress_eq 0x50 (by norm_num),
    I2CSlave_receivedData_eq v hv]
  norm_num

/-- Witness for `c2_roundtrip` at the spec's concrete byte 0b10101100. -/
theorem c2_roundtrip_witness :
    spiTransfer 0b10101100 = (0b10101100, 0b10101100) ∧
      I2CSlave 0x50 0x50 0b10101100 = (true, 0b10101100) :=
  c2_roundtrip 0b10101100 (by decide)

/-- **C10, confirmed.**  For every completed sequence of semaphore operations
started at a nonnegative count: the final count equals
`initial + #signal − #wait` and is never negative (`wait` only completes from a
positive count — and every intermediate state is the completed run of a
shorter sequence, so no intermediate count is negative either); there is no
upper bound: whenever a sequence completes with more `signal`s than `wait`s the
count strictly exceeds the initial capacity, and the run still completes
without any error. -/
theorem c10_semaphore_unbounded (init res : Semaphore) (ops : List SemOp)
    (h0 : 0 ≤ init.count) (h : semRun init ops = some res) :
    res.count = init.count + ops.count .signal - ops.count .wait ∧
      0 ≤ res.count ∧
      (ops.count .wait < ops.count .signal → init.count < res.count) := by
  obtain ⟨he, hn⟩ := semRun_count ops init res h0 h
  refine ⟨he, hn, fun hlt => ?_⟩
  omega

/-- Witness for `c10_semaphore_unbounded`: starting from capacity 2, the
sequence signal–signal–wait completes at count 3 > 2. -/
theorem c10_semaphore_unbounded_witness :
    (⟨3⟩ : Semaphore).count =
        (⟨2⟩ : Semaphore).count + [SemOp.signal, .signal, .wait].count .signal
          - [SemOp.signal, .signal, .wait].count .wait ∧
      0 ≤ (⟨3⟩ : Semaphore).count ∧
      ([SemOp.signal, .signal, .wait].count .wait <
          [SemOp.signal, .signal, .wait].count .signal →
        (⟨2⟩ : Semaphore).count < (⟨3⟩ : Semaphore).count) :=
  c10_semaphore_unbounded ⟨2⟩ ⟨3⟩ [.signal, .signal, .wait] (by decide) (by decide)

/-- **C3, counterexample.**  The claim says the consumed output sequence of the
capacity-2, five-item scenario is exactly {2,4,6,8,10}.  But `task_uart_send`
pops from the *same* `dataQueue` as `task_data_process`: in the reachable,
completed execution `c3BadSched` the uart task wins the race for reading 1 and
emits it raw, so the doubled output sequence is [4,6,8,10] ≠ [2,4,6,8,10]. -/
theorem c3_counterexample :
    pipeRun 5 initPipe c3BadSched = some c3BadFinal ∧
      PipeReachable 5 c3BadFinal ∧
      c3BadFinal.produced = 5 ∧ c3BadFinal.queue = [] ∧
      c3BadFinal.procOut ≠ [2, 4, 6, 8, 10] ∧ c3BadFinal.uartOut = [1] := by
  have hrun : pipeRun 5 initPipe c3BadSched = some c3BadFinal := by decide
  exact ⟨hrun, pipeRun_reachable _ _ _ hrun PipeReachable.init,
    rfl, rfl, by decide, rfl⟩

/-- **C3, amended.**  In every reachable state of the scenario at most 2 items
are in flight between producer and transform (queue length plus a slot held by
the producer never exceeds 2, enforced by the capacity-2 gate), and there
exists an execution — the schedule `c3GoodSched` in which `task_data_process`
performs every pop — whose doubled output sequence is exactly [2,4,6,8,10] in
that order with nothing diverted to `task_uart_send`; the output sequence is
however not the same in every execution (see the counterexample). -/
theorem c3_scenario_amended (s : PipeState) (h : PipeReachable 5 s) :
    s.queue.length + holdNat s ≤ 2 ∧
      pipeRun 5 initPipe c3GoodSched = some c3GoodFinal ∧
      c3GoodFinal.procOut = [2, 4, 6, 8, 10] ∧ c3GoodFinal.uartOut = [] := by
  refine ⟨(pipe_bounds h).2.2.2, by decide, rfl, rfl⟩

/-- Witness for `c3_scenario_amended` at the initial state. -/
theorem c3_scenario_amended_witness :
    initPipe.queue.length + holdNat initPipe ≤ 2 ∧
      pipeRun 5 initPipe c3GoodSched = some c3GoodFinal ∧
      c3GoodFinal.procOut = [2, 4, 6, 8, 10] ∧ c3GoodFinal.uartOut = [] :=
  c3_scenario_amended initPipe PipeReachable.init

/-- **C4, confirmed.**  In every reachable state of the pipeline (any number of
produced items), the admission gate's available count stays within [0, 2] and
the number of completed `wait()` calls never exceeds the number of completed
`signal()` calls by more than the capacity 2. -/
theorem c4_gate_bounds (n : Nat) (s : PipeState) (h : PipeReachable n s) :
    0 ≤ s.count ∧ s.count ≤ 2 ∧ s.waits ≤ s.signals + 2 :=
  ⟨(pipe_bounds h).1, (pipe_bounds h).2.1, (pipe_bounds h).2.2.1⟩

/-- Witness for `c4_gate_bounds` at the initial state of the 5-item scenario. -/
theorem c4_gate_bounds_witness :
    0 ≤ initPipe.count ∧ initPipe.count ≤ 2 ∧ initPipe.waits ≤ initPipe.signals + 2 :=
  c4_gate_bounds 5 initPipe PipeReachable.init

/-- **C5, theorem for the code_bug.**  The claim (and the file's own header,
"Deadlock avoidance") says no item is dropped and the stages never deadlock
because every producer acquire is released by the downstream transform stage.
In the code `task_uart_send` also pops `dataQueue` but never calls
`pipeline_slots.signal()`: after the reachable schedule `c5Sched` (uart pops
readings 1 and 2 before the transform task runs) the state `c5Dead` has both
gate slots consumed forever — only 2 of 5 readings produced, both diverted
around the transform stage, and *no* transition is enabled at all: the sensor
is blocked in `wait()` permanently. -/
theorem c5_deadlock :
    pipeRun 5 initPipe c5Sched = some c5Dead ∧
      PipeReachable 5 c5Dead ∧
      c5Dead.produced = 2 ∧ c5Dead.procOut = [] ∧ c5Dead.uartOut = [1, 2] ∧
      ∀ s' : PipeState, ¬ PipeStep 5 c5Dead s' := by
  have hrun : pipeRun 5 initPipe c5Sched = some c5Dead := by decide
  refine ⟨hrun, pipeRun_reachable _ _ _ hrun PipeReachable.init, rfl, rfl, rfl, ?_⟩
  intro s' h
  cases h with
  | sensorWait h1 h2 h3 => simp [c5Dead] at h3
  | sensorPush h1 => simp [c5Dead] at h1
  | procPop v rest hq hp => simp [c5Dead] at hq
  | procSignal h1 => simp [c5Dead] at h1
  | uartPop v rest hq => simp [c5Dead] at hq

/-- **C6, confirmed.**  In every reachable state (for any burst size `n`) the
concatenation of the dequeue history with the current queue contents equals the
enqueue history: items leave the queue exactly in the order the producer
enqueued them, so the sequence observed by the consuming stages is precisely
the enqueued sequence ([1, 2, ..., produced]) restricted to what has been
dequeued so far — FIFO order is preserved end-to-end. -/
theorem c6_fifo_order (n : Nat) (s : PipeState) (h : PipeReachable n s) :
    s.popped ++ s.queue = s.pushed ∧
      s.popped = s.pushed.take s.popped.length ∧
      s.pushed = (List.range s.produced).map Nat.succ := by
  have inv := pipeInv_reachable h
  refine ⟨inv.histEq, ?_, inv.pushedEq⟩
  rw [← inv.histEq]
  exact (List.take_left _ _).symm

/-- Witness for `c6_fifo_order` at the initial state of the 5-item scenario. -/
theorem c6_fifo_order_witness :
    initPipe.popped ++ initPipe.queue = initPipe.pushed ∧
      initPipe.popped = initPipe.pushed.take initPipe.popped.length ∧
      initPipe.pushed = (List.range initPipe.produced).map Nat.succ :=
  c6_fifo_order 5 initPipe PipeReachable.init

/-- **C7, counterexample.**  The claim says the controller-side transfer
"returns the acknowledgement state observed from the peripheral" in the
I2C-style variant.  At the concrete input address 0x50, data 0xA5, the master's
trace contains no line sample at all — `I2CMaster_Write` returns void and never
reads SDA, so no acknowledgement state is observed or returned. -/
theorem c7_counterexample :
    samplesAnyLine (I2CMaster_Write 0x50 0xA5) = false := rfl

/-- **C7, amended.**  For every address and data byte the master drives the
frame strictly MSB-first — the SDA write sequence is the START low, then
address bits 7..1, then data bits 7..0, then the STOP high after the last bit —
with one assert/hold/de-assert SCL cycle per bit (the SCL write sequence is the
START high followed by 15 assert/de-assert pairs, one per transmitted bit, and
the STOP high); but it observes no acknowledgement from the peripheral: the
trace contains no sample of any line. -/
theorem c7_master_discipline (address data : Nat) :
    writesOf .SDA (I2CMaster_Write address data) =
        false :: [bitOf address 7, bitOf address 6, bitOf address 5, bitOf address 4,
          bitOf address 3, bitOf address 2, bitOf address 1,
          bitOf data 7, bitOf data 6, bitOf data 5, bitOf data 4,
          bitOf data 3, bitOf data 2, bitOf data 1, bitOf data 0, true] ∧
      writesOf .SCL (I2CMaster_Write address data) =
        true :: (List.replicate 15 [true, false]).flatten ++ [true] ∧
      samplesAnyLine (I2CMaster_Write address data) = false :=
  ⟨rfl, rfl, rfl⟩

/-- **C8, counterexample.**  The claim says every mutation and every sample of
the bus lines happens while holding the bus lock and that the lock is never
held across a sleep.  At concrete inputs: the very first event of
`SPIMaster(0b10101100)` is the chip-select mutation `CS := false` performed at
lock depth 0 (no lock held), and the trace of `I2CMaster_Write(0x50, 0xA5)`
contains a 50 ms sleep executed at lock depth 1 (inside a `lock_guard`). -/
theorem c8_counterexample :
    (annotateDepth 0 (SPIMaster 0b10101100)).head? =
        some (.write .CS false, 0) ∧
      (BusEv.sleepMs 50, 1) ∈ annotateDepth 0 (I2CMaster_Write 0x50 0xA5) := by
  exact ⟨rfl, by decide⟩

/-- **C8, amended.**  For all inputs: in the SPI master's trace the MOSI/SCLK
writes and the MISO sample all happen under the lock and no sleep happens while
the lock is held, but both chip-select writes happen with no lock held; in the
I2C master's trace every line write happens under the lock and no line is ever
sampled, but the lock *is* held across the 50 ms hold inside every bit slot
(witnessed here by the first such sleep at depth 1). -/
theorem c8_lock_discipline (v address data : Nat) :
    (annotateDepth 0 (SPIMaster v)).all spiMasterLockOk = true ∧
      (annotateDepth 0 (I2CMaster_Write address data)).all i2cMasterLockOk = true ∧
      (BusEv.sleepMs 50, 1) ∈ annotateDepth 0 (I2CMaster_Write address data) := by
  refine ⟨rfl, rfl, ?_⟩
  simp [I2CMaster_Write, i2cBitSlot, annotateDepth]

/-- **C9, confirmed.**  For every address and data byte, `I2CMaster_Write`
never samples any bus line (the ACK slot is only slept through), and its SDA
write sequence unconditionally contains the complete 8-bit data phase
(bits 7..0 of `data`, MSB-first) followed by the STOP transition — the data
phase and STOP are driven even when the peripheral has NACKed the address,
since the trace is the same for every (including mismatched) address. -/
theorem c9_unconditional_data_phase (address data : Nat) :
    samplesAnyLine (I2CMaster_Write address data) = false ∧
      writesOf .SDA (I2CMaster_Write address data) =
        [false, bitOf address 7, bitOf address 6, bitOf address 5, bitOf address 4,
          bitOf address 3, bitOf address 2, bitOf address 1] ++
          [bitOf data 7, bitOf data 6, bitOf data 5, bitOf data 4,
            bitOf data 3, bitOf data 2, bitOf data 1, bitOf data 0] ++ [true] :=
  ⟨rfl, rfl⟩
